import Mathlib

/-!
Verification of the BGP topology backend (`src/backend/main.py`) against its
specification.  The Python program is shallowly embedded: JSON-like documents
become the inductive type `PyVal`, Python's dynamic attribute/subscript
operations become functions into `Except PyErr`, and each function of the
source (`extract_routes`, `build_dynamic_topology`, `fetch_topology`, the
change detection in `poll_loop`, and `ConnectionManager.broadcast`) becomes a
Lean definition with the same structure.  Python `set` iteration order is
unspecified; the embedding realizes every set as an insertion-ordered
deduplicated list (first occurrence kept), a deterministic refinement of the
unspecified order.  String operations are implemented over `List Char` so that
every definition evaluates inside the kernel.
-/

/-! ## Character-list string primitives (Python `str` methods) -/

/-- Test whether `p` is a leading segment of `s` (Python `str.startswith`). -/
def isPfx : List Char → List Char → Bool
  | [], _ => true
  | _ :: _, [] => false
  | p :: ps, c :: cs => p = c && isPfx ps cs

/-- Python `s.startswith(p)`. -/
def strStartsWith (s p : String) : Bool := isPfx p.data s.data

/-- Python `s.endswith(p)`. -/
def strEndsWith (s p : String) : Bool := isPfx p.data.reverse s.data.reverse

/-- Fuel-driven worker for `strSplit`; the fuel is the length of the input,
which bounds the number of steps since every step consumes at least one
character. -/
def chSplit (sep : List Char) : Nat → List Char → List Char → List (List Char)
  | 0, l, cur => [cur.reverse ++ l]
  | fuel + 1, l, cur =>
    match l with
    | [] => [cur.reverse]
    | c :: rest =>
      if sep ≠ [] ∧ isPfx sep l then
        cur.reverse :: chSplit sep fuel (l.drop sep.length) []
      else
        chSplit sep fuel rest (c :: cur)

/-- Python `s.split(sep)` for a non-empty separator `sep`. -/
def strSplit (s sep : String) : List String :=
  (chSplit sep.data s.data.length s.data []).map String.mk

/-! ## Python value and error model -/

/-- A parsed JSON-like Python value: the shape of the documents returned by
the controller and of every intermediate value the program manipulates. -/
inductive PyVal where
  | pstr (s : String)
  | pint (n : Int)
  | plist (xs : List PyVal)
  | pdict (fields : List (String × PyVal))
  | pnone
deriving Repr

/-- The Python exception classes the program distinguishes: `KeyError`,
`IndexError`, `TypeError`, `AttributeError` and `ValueError`. -/
inductive PyErr where
  | keyError
  | indexError
  | typeError
  | attributeError
  | valueError
deriving DecidableEq, Repr

/-- A subscript key: Python `d[k]` with a string key or `l[i]` with a
non-negative integer index. -/
inductive PyKey where
  | str (s : String)
  | int (i : Nat)

/-- Python truthiness (`if not x`): empty containers, empty strings, zero and
`None` are falsy. -/
def pyFalsy : PyVal → Bool
  | .pstr s => s.data.isEmpty
  | .pint n => n = 0
  | .plist xs => xs.isEmpty
  | .pdict fs => fs.isEmpty
  | .pnone => true

/-- Python `d.get(k, default)`: only dictionaries have a `get` method, any
other receiver raises `AttributeError`. -/
def pyGet (v : PyVal) (k : String) (d : PyVal) : Except PyErr PyVal :=
  match v with
  | .pdict fs =>
    match fs.find? (fun f => f.1 = k) with
    | some f => .ok f.2
    | none => .ok d
  | _ => .error .attributeError

/-- Python subscript `v[k]`: dictionaries raise `KeyError` on a missing (or
integer) key, lists and strings raise `IndexError` past the end and
`TypeError` on a string key, and scalars raise `TypeError`. -/
def pySub (v : PyVal) (k : PyKey) : Except PyErr PyVal :=
  match v, k with
  | .pdict fs, .str s =>
    match fs.find? (fun f => f.1 = s) with
    | some f => .ok f.2
    | none => .error .keyError
  | .pdict _, .int _ => .error .keyError
  | .plist xs, .int i =>
    match xs[i]? with
    | some x => .ok x
    | none => .error .indexError
  | .plist _, .str _ => .error .typeError
  | .pstr s, .int i =>
    match s.data[i]? with
    | some c => .ok (.pstr (String.mk [c]))
    | none => .error .indexError
  | .pstr _, .str _ => .error .typeError
  | _, _ => .error .typeError

/-- Python `for x in v`: lists yield their items, dictionaries their keys,
strings their characters; scalars are not iterable. -/
def pyIter (v : PyVal) : Except PyErr (List PyVal) :=
  match v with
  | .plist xs => .ok xs
  | .pdict fs => .ok (fs.map (fun f => .pstr f.1))
  | .pstr s => .ok (s.data.map (fun c => .pstr (String.mk [c])))
  | _ => .error .typeError

/-- Value equality as Python compares the hashable scalars that reach the
route-deduplication set (strings, integers, `None`). -/
def scalarEq (a b : PyVal) : Bool :=
  match a, b with
  | .pstr x, .pstr y => x = y
  | .pint x, .pint y => x = y
  | .pnone, .pnone => true
  | _, _ => false

/-- Python hashability: lists and dictionaries are unhashable and make
`set`-insertion raise `TypeError`. -/
def pyHashable : PyVal → Bool
  | .plist _ => false
  | .pdict _ => false
  | _ => true

/-- Insertion into an insertion-ordered string set (Python `set.add`). -/
def insertOrd (acc : List String) (s : String) : List String :=
  if acc.contains s then acc else acc ++ [s]

/-! ## Data model -/

/-- One extracted route record `{"prefix": value}` (`extract_routes` always
creates the single key `"prefix"`, so the record is represented by the value
stored under it). -/
structure Route where
  pfx : PyVal
deriving Repr

/-- A topology node `{"id": ..., "label": ...}`. -/
structure Node where
  id : String
  label : String
deriving DecidableEq, Repr

/-- A topology edge `{"from": ..., "to": ..., "label": ...}` (`from` is a
Lean keyword, hence the field names `efrom`/`eto`). -/
structure Edge where
  efrom : String
  eto : String
  label : String
deriving DecidableEq, Repr

/-- The snapshot dictionary `{"nodes": [...], "edges": [...]}` produced by
`build_dynamic_topology`. -/
structure Snapshot where
  nodes : List Node
  edges : List Edge
deriving DecidableEq, Repr

/-! ## STEP 2: `extract_routes` -/

/-- Walk of one `tables` value: for each table, collect
`table.get("bgp-inet:ipv4-routes", {}).get("ipv4-route", [])` and append a
route `{"prefix": route.get("prefix", "")}` for each record. -/
def routes_from_tables (tables : PyVal) (acc : List Route) : Except PyErr (List Route) := do
  let ts ← pyIter tables
  ts.foldlM (fun acc1 table => do
    let ipv4obj ← pyGet table "bgp-inet:ipv4-routes" (.pdict [])
    let rlist ← pyGet ipv4obj "ipv4-route" (.plist [])
    let rs ← pyIter rlist
    rs.foldlM (fun acc2 route => do
      let p ← pyGet route "prefix" (.pstr "")
      pure (acc2 ++ [⟨p⟩])) acc1) acc

/-- Final deduplication `[dict(t) for t in {tuple(d.items()) for d in routes}]`:
inserting an unhashable prefix value into the set raises `TypeError`;
otherwise duplicates (by value) are dropped, first occurrence kept. -/
def dedup_routes (rs : List Route) : Except PyErr (List Route) :=
  if rs.all (fun r => pyHashable r.pfx) then
    .ok (rs.foldl (fun acc r =>
      if acc.any (fun r2 => scalarEq r2.pfx r.pfx) then acc else acc ++ [r]) [])
  else
    .error .typeError

/-- Body of the `try:` block of `extract_routes`: walk the `loc-rib` tables,
then every peer's `effective-rib-in` tables, and deduplicate. -/
def extract_routes_core (bgp_data : PyVal) : Except PyErr (List Route) := do
  let rib ← pyGet bgp_data "bgp-rib:rib" (.plist [])
  if pyFalsy rib then
    pure []
  else do
    let rib0 ← pySub rib (.int 0)
    let locrib ← pyGet rib0 "loc-rib" (.pdict [])
    let tables ← pyGet locrib "tables" (.plist [])
    let routes1 ← routes_from_tables tables []
    let peers ← pyGet rib0 "peer" (.plist [])
    let peersL ← pyIter peers
    let routes2 ← peersL.foldlM (fun acc peer => do
      let ribin ← pyGet peer "effective-rib-in" (.pdict [])
      let tbls ← pyGet ribin "tables" (.plist [])
      routes_from_tables tbls acc) routes1
    dedup_routes routes2

/-- `extract_routes`: the whole body is wrapped in `try: ... except Exception:
return []`, so any raised error yields the empty route list. -/
def extract_routes (bgp_data : PyVal) : List Route :=
  match extract_routes_core bgp_data with
  | .ok rs => rs
  | .error _ => []

/-! ## STEP 3: `build_dynamic_topology` -/

/-- Body of the Part 1a `try:` block:
`bgp_data["bgp-rib:rib"][0]["peer"][0]["peer-id"]`, then
`peer_id_str.split('//')[-1]` (`split` exists only on strings, so any other
value raises `AttributeError`). -/
def local_ip_of (bgp_data : PyVal) : Except PyErr String := do
  let v1 ← pySub bgp_data (.str "bgp-rib:rib")
  let v2 ← pySub v1 (.int 0)
  let v3 ← pySub v2 (.str "peer")
  let v4 ← pySub v3 (.int 0)
  let v5 ← pySub v4 (.str "peer-id")
  match v5 with
  | .pstr s => pure ((strSplit s "//").getLastD "")
  | _ => .error .attributeError

/-- Part 1a with its `except (KeyError, IndexError)` handler: on those two
errors the local prefix is absent (`None`); any other error propagates. -/
def part1a (bgp_data : PyVal) : Except PyErr (Option String) :=
  match local_ip_of bgp_data with
  | .ok ip => .ok (some (ip ++ "/32"))
  | .error .keyError => .ok none
  | .error .indexError => .ok none
  | .error e => .error e

/-- Part 1b set comprehension: keep `r['prefix']` for every route whose
prefix value starts with `"192.168.7."` and ends with `"/32"`; calling
`startswith` on a non-string prefix raises `AttributeError` (uncaught). -/
def part1b (routes : List Route) : Except PyErr (List String) :=
  routes.foldlM (fun acc r =>
    match r.pfx with
    | .pstr s =>
      if strStartsWith s "192.168.7." && strEndsWith s "/32" then
        pure (insertOrd acc s)
      else
        pure acc
    | _ => .error .attributeError) []

/-- Python `prefix.split('/')[0]`. -/
def ip_of (p : String) : String := (strSplit p "/").headD ""

/-- Python `ip_str.split('.')[-1]`. -/
def last_octet (ip : String) : String := (strSplit ip ".").getLastD ""

/-- `G.add_node(i, label=l)`: a fresh id is appended, an existing id keeps its
position and has its label overwritten. -/
def addNode (ns : List (String × String)) (i l : String) : List (String × String) :=
  if ns.any (fun q => q.1 = i) then
    ns.map (fun q => if q.1 = i then (i, l) else q)
  else
    ns ++ [(i, l)]

/-- Part 1c: one unified loop turning every candidate prefix into a node
`R<last-octet>` labelled with the bare IP (the `except (ValueError,
IndexError)` clause of the source guards operations that never raise). -/
def build_nodes (ps : List String) : List (String × String) :=
  ps.foldl (fun acc p => addNode acc ("R" ++ last_octet (ip_of p)) (ip_of p)) []

/-- `G.has_node`. -/
def hasNode (ns : List (String × String)) (i : String) : Bool :=
  ns.any (fun q => q.1 = i)

/-- Unordered comparison of the endpoint pairs `{a, b}` and `{u, v}`. -/
def sameEdge (a b u v : String) : Bool := (a = u && b = v) || (a = v && b = u)

/-- `G.add_edge(u, v, label=l)` between existing nodes: an existing edge on
the same unordered endpoint pair keeps its position and orientation and has
its label overwritten, otherwise the edge is appended. -/
def addEdge (es : List (String × String × String)) (u v l : String) :
    List (String × String × String) :=
  if es.any (fun e => sameEdge e.1 e.2.1 u v) then
    es.map (fun e => if sameEdge e.1 e.2.1 u v then (e.1, e.2.1, l) else e)
  else
    es ++ [(u, v, l)]

/-! Part 2a: `find_prefixes_recursively(data, pattern, found_set)` — collect
every string anywhere in the document that starts with `pattern`, dictionary
values and list items visited in order, into an insertion-ordered set. -/
mutual
def find_prefixes_recursively (pattern : String) : PyVal → List String → List String
  | .pdict fs, acc => find_pfx_fields pattern fs acc
  | .plist xs, acc => find_pfx_items pattern xs acc
  | .pstr s, acc => if strStartsWith s pattern then insertOrd acc s else acc
  | .pint _, acc => acc
  | .pnone, acc => acc

def find_pfx_fields (pattern : String) : List (String × PyVal) → List String → List String
  | [], acc => acc
  | (_, v) :: fs, acc => find_pfx_fields pattern fs (find_prefixes_recursively pattern v acc)

def find_pfx_items (pattern : String) : List PyVal → List String → List String
  | [], acc => acc
  | x :: xs, acc => find_pfx_items pattern xs (find_prefixes_recursively pattern x acc)
end

/-- Part 2b loop body for one discovered link string: take the address before
`'/'`, require a two-character third octet (a short address raises
`IndexError`, caught by the loop's `except`, and skips the string), derive
`R<x>` and `R<y>` from its two characters, and only if both nodes exist add
the edge labelled `<address>/30`. -/
def edge_step (ns : List (String × String)) (es : List (String × String × String))
    (lp : String) : List (String × String × String) :=
  let network_address := (strSplit lp "/").headD ""
  let parts := strSplit network_address "."
  match parts[2]? with
  | none => es
  | some third =>
    if third.data.length = 2 then
      let x := String.mk (third.data.take 1)
      let y := String.mk (third.data.drop 1)
      let node1_id := "R" ++ x
      let node2_id := "R" ++ y
      if hasNode ns node1_id && hasNode ns node2_id then
        addEdge es node1_id node2_id (network_address ++ "/30")
      else
        es
    else
      es

/-- Position of a node id in the node insertion order (`List.length` when
absent, as every id that occurs in an edge is a node id). -/
def idxOf : List String → String → Nat
  | [], _ => 0
  | x :: xs, a => if x = a then 0 else idxOf xs a + 1

/-- The endpoint of `e` opposite to `n`. -/
def otherEnd (n : String) (e : String × String × String) : String :=
  if e.1 = n then e.2.1 else e.1

/-- Whether iteration of `G.edges` reports edge `e` while visiting node `n`:
`n` is an endpoint and does not come after the other endpoint in node
insertion order. -/
def emits (ids : List String) (n : String) (e : String × String × String) : Bool :=
  (e.1 = n || e.2.1 = n) && idxOf ids n ≤ idxOf ids (otherEnd n e)

/-- Part 3 edge serialization: `G.edges(data=True)` visits nodes in insertion
order and reports each edge once, oriented from the earlier-inserted
endpoint, neighbours in edge insertion order. -/
def edges_out (ids : List String) (es : List (String × String × String)) : List Edge :=
  (ids.map (fun n => (es.filter (fun e => emits ids n e)).map
    (fun e => Edge.mk n (otherEnd n e) e.2.2))).flatten

/-- The complete node candidate set: the Part 1b prefixes, extended with the
local prefix when Part 1a found one (`if local_ip_prefix:
node_prefixes.add(local_ip_prefix)`). -/
def node_pfx_set (lip : Option String) (nps : List String) : List String :=
  match lip with
  | some p => insertOrd nps p
  | none => nps

/-- The error-free tail of `build_dynamic_topology` (Parts 1b to 3) once the
local prefix `lip` and the Part 1b candidate list `nps` are known: union in
the local prefix, build nodes, scan for link strings, build edges,
serialize. -/
def buildFrom (lip : Option String) (nps : List String) (bgp_data : PyVal) : Snapshot :=
  let ns := build_nodes (node_pfx_set lip nps)
  let link_pfxs := find_prefixes_recursively "10.85." bgp_data []
  let es := link_pfxs.foldl (edge_step ns) []
  { nodes := ns.map (fun q => ⟨q.1, q.2⟩),
    edges := edges_out (ns.map Prod.fst) es }

/-- `build_dynamic_topology(routes, bgp_data)`: local identity (Part 1a) may
raise, then the pure tail `buildFrom` computes the snapshot. -/
def build_dynamic_topology (routes : List Route) (bgp_data : PyVal) :
    Except PyErr Snapshot := do
  let local_ip_pfx ← part1a bgp_data
  let nps ← part1b routes
  pure (buildFrom local_ip_pfx nps bgp_data)

/-! ## STEP 4 and STEP 5: `fetch_topology`, change detection, broadcast -/

/-- `fetch_topology` as a function of the document the fetch collaborator
produced; a failed fetch yields `{}` (`fetch_bgp_data` returns `{}` on a
non-200 status or connection error), which is falsy and short-circuits to the
empty snapshot. -/
def fetch_topology (bgp_data : PyVal) : Except PyErr Snapshot :=
  if pyFalsy bgp_data then
    .ok ⟨[], []⟩
  else
    let routes := extract_routes bgp_data
    if routes.isEmpty then
      build_dynamic_topology [] bgp_data
    else
      build_dynamic_topology routes bgp_data

/-- Python `if graph and ...`: the snapshot dictionary always has the two
keys `nodes` and `edges`, hence is always truthy. -/
def snapshotTruthy (_ : Snapshot) : Bool := true

/-- The change detection of `poll_loop`:
`if graph and graph != _latest_snapshot: _latest_snapshot = graph; broadcast`.
Comparison is Python `!=` on the snapshot dictionaries, i.e. structural
equality of the node and edge lists. Returns the new store and whether a
broadcast happened. -/
def considerSnapshot (stored : Option Snapshot) (graph : Snapshot) :
    Option Snapshot × Bool :=
  if snapshotTruthy graph ∧ stored ≠ some graph then
    (some graph, true)
  else
    (stored, false)

/-- A subscriber connection: `deliveryOk` tells whether a send on it
succeeds. -/
structure Subscriber where
  id : Nat
  deliveryOk : Bool
deriving DecidableEq, Repr

/-- `ConnectionManager.broadcast`: every send is individually guarded by
`try: ... except Exception: self.disconnect(ws)`, so a failed delivery only
removes that subscriber and nothing propagates. -/
def broadcast (subs : List Subscriber) : List Subscriber :=
  subs.filter (fun s => s.deliveryOk)

/-- One iteration of the `while True:` body of `poll_loop`, as a function of
the document this cycle's fetch produced: build the snapshot, detect change,
on change store it and broadcast. Returns the stored snapshot, the surviving
subscribers and whether a broadcast happened. -/
def poll_cycle (stored : Option Snapshot) (subs : List Subscriber) (doc : PyVal) :
    Except PyErr (Option Snapshot × List Subscriber × Bool) := do
  let graph ← fetch_topology doc
  let (st, changed) := considerSnapshot stored graph
  pure (st, if changed then broadcast subs else subs, changed)

/-! ## Predicates about graph edge records -/

/-- Some edge record of `es` joins the unordered endpoint pair `{a, b}`. -/
def pairMem (es : List (String × String × String)) (a b : String) : Prop :=
  ∃ e ∈ es, sameEdge e.1 e.2.1 a b = true

/-- No two distinct edge records of `es` join the same unordered endpoint
pair. -/
def pairwiseDistinct (es : List (String × String × String)) : Prop :=
  es.Pairwise (fun e1 e2 => sameEdge e1.1 e1.2.1 e2.1 e2.2.1 = false)

/-! ## Concrete documents and snapshots used by the claims -/

/-- The end-to-end document of the specification: local peer-id
`"bgp://192.168.7.1"`, advertised routes `192.168.7.1/32` and
`192.168.7.2/32`, and the string `"10.85.12.5/32"` nested in a position the
Route Extractor does not visit. -/
def c1Doc : PyVal := .pdict [("bgp-rib:rib", .plist [ .pdict [
  ("loc-rib", .pdict [("tables", .plist [ .pdict [("bgp-inet:ipv4-routes",
    .pdict [("ipv4-route", .plist [
      .pdict [("prefix", .pstr "192.168.7.1/32")],
      .pdict [("prefix", .pstr "192.168.7.2/32")] ])])]])]),
  ("peer", .plist [ .pdict [
    ("peer-id", .pstr "bgp://192.168.7.1"),
    ("adj-rib-out", .pdict [("x", .pstr "10.85.12.5/32")])]])]])]

/-- The routes the Extractor produces from `c1Doc`. -/
def c1Routes : List Route := [⟨.pstr "192.168.7.1/32"⟩, ⟨.pstr "192.168.7.2/32"⟩]

/-- The snapshot the program actually produces from `c1Doc`: the edge label
keeps the advertised host address, only the mask is rewritten to `/30`. -/
def c1Actual : Snapshot :=
  ⟨[⟨"R1", "192.168.7.1"⟩, ⟨"R2", "192.168.7.2"⟩], [⟨"R1", "R2", "10.85.12.5/30"⟩]⟩

/-- The snapshot claimed by the specification for `c1Doc`, with the edge
label carrying the `/30` network address `10.85.12.0`. -/
def c1Claimed : Snapshot :=
  ⟨[⟨"R1", "192.168.7.1"⟩, ⟨"R2", "192.168.7.2"⟩], [⟨"R1", "R2", "10.85.12.0/30"⟩]⟩

/-- A well-formed routing table carrying the prefix `192.168.7.1/32`. -/
def goodTable : PyVal := .pdict [("bgp-inet:ipv4-routes",
  .pdict [("ipv4-route", .plist [.pdict [("prefix", .pstr "192.168.7.1/32")]])])]

/-- A document whose `loc-rib` table list holds a good table followed by a
malformed entry (a bare string where a table object is expected). -/
def c3BadDoc : PyVal := .pdict [("bgp-rib:rib", .plist [ .pdict [
  ("loc-rib", .pdict [("tables", .plist [goodTable, .pstr "oops"])])]])]

/-- The same document without the malformed entry. -/
def c3GoodDoc : PyVal := .pdict [("bgp-rib:rib", .plist [ .pdict [
  ("loc-rib", .pdict [("tables", .plist [goodTable])])]])]

/-- A document with a good `loc-rib` branch and a peer record that lacks the
expected `effective-rib-in` field entirely. -/
def c3AbsentDoc : PyVal := .pdict [("bgp-rib:rib", .plist [ .pdict [
  ("loc-rib", .pdict [("tables", .plist [goodTable])]),
  ("peer", .plist [.pdict [("peer-id", .pstr "bgp://192.168.7.9")]])]])]

/-- A document whose first peer carries a non-string `peer-id` (a structural
anomaly of the wrong-shape kind). -/
def peerIdNonStrDoc : PyVal := .pdict [("bgp-rib:rib", .plist [ .pdict [
  ("peer", .plist [ .pdict [("peer-id", .pint 5)]])]])]

/-- A document whose first peer-id is a string but not of the
`<scheme>://<ip-address>` form. -/
def peerIdMalformedDoc : PyVal := .pdict [("bgp-rib:rib", .plist [ .pdict [
  ("peer", .plist [ .pdict [("peer-id", .pstr "192.168.7.9")]])]])]

/-- A document with a RIB but no peer list, so the peer-id is absent. -/
def peerIdAbsentDoc : PyVal := .pdict [("bgp-rib:rib", .plist [.pdict []])]

/-- A candidate prefix that passes the Part 1b filter although its IP part is
not four dot-separated numeric octets. -/
def c5Route : Route := ⟨.pstr "192.168.7.x/32"⟩

/-- A routes list containing the same `/32` prefix twice. -/
def c8Routes : List Route := [⟨.pstr "192.168.7.3/32"⟩, ⟨.pstr "192.168.7.3/32"⟩]

/-- Routes advertising routers 1 and 2. -/
def r12Routes : List Route := [⟨.pstr "192.168.7.1/32"⟩, ⟨.pstr "192.168.7.2/32"⟩]

/-- A document containing two link strings whose third octets name the same
router pair in opposite orders. -/
def c10Doc : PyVal := .pdict [("a", .pstr "10.85.12.0/30"), ("b", .pstr "10.85.21.0/30")]

/-- A document containing one link string naming routers 1 and 2. -/
def c7LinkDoc : PyVal := .pdict [("a", .pstr "10.85.12.0/30")]

/-- A stored snapshot with nodes R1, R2 in that order. -/
def c2Fst : Snapshot := ⟨[⟨"R1", "192.168.7.1"⟩, ⟨"R2", "192.168.7.2"⟩], []⟩

/-- The same node set in the opposite order. -/
def c2Snd : Snapshot := ⟨[⟨"R2", "192.168.7.2"⟩, ⟨"R1", "192.168.7.1"⟩], []⟩

/-- A rich previously stored topology. -/
def richSnapshot : Snapshot :=
  ⟨[⟨"R1", "192.168.7.1"⟩, ⟨"R2", "192.168.7.2"⟩], [⟨"R1", "R2", "10.85.12.0/30"⟩]⟩

/-- The empty document a failed fetch substitutes. -/
def emptyDoc : PyVal := .pdict []

/-! ## Helper lemmas -/

/-- A property preserved by every step of a fold holds of the fold's result. -/
theorem foldl_preserve {α β : Type} (P : α → Prop) (f : α → β → α)
    (hf : ∀ a b, P a → P (f a b)) :
    ∀ (l : List β) (a : α), P a → P (l.foldl f a)
  | [], _, h => h
  | b :: l, a, h => foldl_preserve P f hf l (f a b) (hf a b h)

/-- A property established by some step of a fold and preserved by every step
holds of the fold's result. -/
theorem foldl_attains {α β : Type} (P : α → Prop) (f : α → β → α)
    (hf : ∀ a b, P a → P (f a b)) :
    ∀ (l : List β) (a : α) (b : β), b ∈ l → (∀ a', P (f a' b)) → P (l.foldl f a) := by
  intro l
  induction l with
  | nil => intro a b hb; cases hb
  | cons hd tl ih =>
    intro a b hb hP
    rcases List.mem_cons.mp hb with rfl | hbtl
    · exact foldl_preserve P f hf tl (f a b) (hP a)
    · exact ih (f a hd) b hbtl hP

theorem sameEdge_iff {a b u v : String} :
    sameEdge a b u v = true ↔ (a = u ∧ b = v) ∨ (a = v ∧ b = u) := by
  simp [sameEdge]

theorem sameEdge_self (a b : String) : sameEdge a b a b = true := by
  simp [sameEdge]

theorem sameEdge_symm {a b u v : String} (h : sameEdge a b u v = true) :
    sameEdge u v a b = true := by
  rw [sameEdge_iff] at h ⊢
  rcases h with ⟨h1, h2⟩ | ⟨h1, h2⟩
  · exact .inl ⟨h1.symm, h2.symm⟩
  · exact .inr ⟨h2.symm, h1.symm⟩

theorem sameEdge_trans {a b x y u v : String} (h1 : sameEdge a b x y = true)
    (h2 : sameEdge x y u v = true) : sameEdge a b u v = true := by
  rw [sameEdge_iff] at h1 h2 ⊢
  rcases h1 with ⟨rfl, rfl⟩ | ⟨rfl, rfl⟩ <;>
    rcases h2 with ⟨rfl, rfl⟩ | ⟨rfl, rfl⟩ <;> simp

/-- If `n` is an endpoint of the record `e`, then `{n, otherEnd n e}` is the
endpoint pair of `e`. -/
theorem endpoint_pair {e : String × String × String} {n : String}
    (h : e.1 = n ∨ e.2.1 = n) :
    sameEdge e.1 e.2.1 n (otherEnd n e) = true := by
  unfold otherEnd
  rcases h with h | h
  · simp [h, sameEdge_iff]
  · by_cases h1 : e.1 = n
    · simp [h1, h, sameEdge_iff]
    · simp [h1, h, sameEdge_iff]

theorem idxOf_inj : ∀ (ids : List String), ids.Nodup → ∀ {a b : String},
    a ∈ ids → b ∈ ids → idxOf ids a = idxOf ids b → a = b := by
  intro ids
  induction ids with
  | nil => intro _ a b ha; cases ha
  | cons x xs ih =>
    intro hnd a b ha hb heq
    rw [List.nodup_cons] at hnd
    unfold idxOf at heq
    by_cases hxa : x = a
    · by_cases hxb : x = b
      · rw [← hxa, ← hxb]
      · rw [if_pos hxa, if_neg hxb] at heq
        exact absurd heq.symm (Nat.succ_ne_zero _)
    · by_cases hxb : x = b
      · rw [if_neg hxa, if_pos hxb] at heq
        exact absurd heq (Nat.succ_ne_zero _)
      · rw [if_neg hxa, if_neg hxb] at heq
        have ha' : a ∈ xs := List.mem_of_ne_of_mem (fun h => hxa h.symm) ha
        have hb' : b ∈ xs := List.mem_of_ne_of_mem (fun h => hxb h.symm) hb
        exact ih hnd.2 ha' hb' (Nat.succ_injective heq)

theorem hasNode_iff {ns : List (String × String)} {i : String} :
    hasNode ns i = true ↔ i ∈ ns.map Prod.fst := by
  simp [hasNode, List.any_eq_true, List.mem_map, decide_eq_true_eq]

/-- The node ids after `add_node`: unchanged when the id exists, appended
otherwise. -/
theorem addNode_fst (ns : List (String × String)) (i l : String) :
    (addNode ns i l).map Prod.fst =
      if ns.any (fun q => decide (q.1 = i)) then ns.map Prod.fst
      else ns.map Prod.fst ++ [i] := by
  unfold addNode
  by_cases h : (ns.any fun q => decide (q.1 = i)) = true
  · rw [if_pos h, if_pos h, List.map_map]
    apply List.map_congr_left
    intro q _
    by_cases hq : q.1 = i
    · simp [hq]
    · simp [hq]
  · rw [if_neg h, if_neg h]
    simp

theorem addNode_fst_nodup {ns : List (String × String)} (i l : String)
    (h : (ns.map Prod.fst).Nodup) : ((addNode ns i l).map Prod.fst).Nodup := by
  rw [addNode_fst]
  split
  · exact h
  · rename_i hany
    rw [List.nodup_append]
    refine ⟨h, List.nodup_singleton i, ?_⟩
    intro a ha hb
    rw [List.mem_singleton] at hb
    subst hb
    rcases List.mem_map.mp ha with ⟨q, hq, hq1⟩
    exact hany (List.any_eq_true.mpr ⟨q, hq, by simp [hq1]⟩)

theorem mem_addNode_fst_self (ns : List (String × String)) (i l : String) :
    i ∈ (addNode ns i l).map Prod.fst := by
  rw [addNode_fst]
  split
  · rename_i hany
    rcases List.any_eq_true.mp hany with ⟨q, hq, hqi⟩
    rw [decide_eq_true_eq] at hqi
    exact List.mem_map.mpr ⟨q, hq, hqi⟩
  · simp

theorem mem_addNode_fst_of_mem {ns : List (String × String)} {j : String} (i l : String)
    (h : j ∈ ns.map Prod.fst) : j ∈ (addNode ns i l).map Prod.fst := by
  rw [addNode_fst]
  split
  · exact h
  · exact List.mem_append_left _ h

/-- Every node id in `build_nodes ps` is distinct. -/
theorem build_nodes_nodup (ps : List String) :
    ((build_nodes ps).map Prod.fst).Nodup := by
  unfold build_nodes
  exact foldl_preserve (fun ns => (ns.map Prod.fst).Nodup)
    (fun acc p => addNode acc ("R" ++ last_octet (ip_of p)) (ip_of p))
    (fun a b h => addNode_fst_nodup _ _ h) ps [] List.nodup_nil

/-- Every candidate prefix contributes its derived id to `build_nodes`. -/
theorem mem_build_nodes {ps : List String} {p : String} (hp : p ∈ ps) :
    ("R" ++ last_octet (ip_of p)) ∈ (build_nodes ps).map Prod.fst := by
  unfold build_nodes
  exact foldl_attains (fun ns => ("R" ++ last_octet (ip_of p)) ∈ ns.map Prod.fst)
    (fun acc q => addNode acc ("R" ++ last_octet (ip_of q)) (ip_of q))
    (fun a b h => mem_addNode_fst_of_mem _ _ h) ps [] p hp
    (fun a' => mem_addNode_fst_self a' _ _)

theorem otherEnd_mem (n : String) (e : String × String × String) :
    otherEnd n e = e.1 ∨ otherEnd n e = e.2.1 := by
  unfold otherEnd
  split
  · exact .inr rfl
  · exact .inl rfl

/-- If `n` and `m` are the two (distinct) endpoints of `e`, the endpoint
opposite `n` is `m`. -/
theorem otherEnd_of_ne {e : String × String × String} {n m : String}
    (hn : e.1 = n ∨ e.2.1 = n) (hm : e.1 = m ∨ e.2.1 = m) (hne : n ≠ m) :
    otherEnd n e = m := by
  unfold otherEnd
  rcases hn with hn | hn <;> rcases hm with hm | hm
  · exact absurd (hn ▸ hm) hne
  · rw [if_pos hn]; exact hm
  · rw [if_neg (fun h => hne ((hm ▸ h : m = n)).symm)]; exact hm
  · exact absurd (hn ▸ hm) hne

theorem emits_elim {ids : List String} {n : String} {e : String × String × String}
    (h : emits ids n e = true) :
    (e.1 = n ∨ e.2.1 = n) ∧ idxOf ids n ≤ idxOf ids (otherEnd n e) := by
  unfold emits at h
  rw [Bool.and_eq_true, Bool.or_eq_true] at h
  obtain ⟨h1, h2⟩ := h
  refine ⟨?_, of_decide_eq_true h2⟩
  rcases h1 with h | h
  · exact .inl (of_decide_eq_true h)
  · exact .inr (of_decide_eq_true h)

theorem emits_intro {ids : List String} {n : String} {e : String × String × String}
    (h1 : e.1 = n ∨ e.2.1 = n) (h2 : idxOf ids n ≤ idxOf ids (otherEnd n e)) :
    emits ids n e = true := by
  unfold emits
  rw [Bool.and_eq_true, Bool.or_eq_true]
  refine ⟨?_, decide_eq_true h2⟩
  rcases h1 with h | h
  · exact .inl (decide_eq_true h)
  · exact .inr (decide_eq_true h)

/-- Endpoints of the records of `addEdge es u v l`: either the endpoints of a
record of `es`, or the new pair `(u, v)`. -/
theorem addEdge_endpoints {es : List (String × String × String)} {u v l : String}
    {e' : String × String × String} (h : e' ∈ addEdge es u v l) :
    (∃ e ∈ es, e'.1 = e.1 ∧ e'.2.1 = e.2.1) ∨ (e'.1 = u ∧ e'.2.1 = v) := by
  unfold addEdge at h
  split at h
  · rcases List.mem_map.mp h with ⟨e, he, rfl⟩
    left
    refine ⟨e, he, ?_⟩
    split
    · exact ⟨rfl, rfl⟩
    · exact ⟨rfl, rfl⟩
  · rcases List.mem_append.mp h with he | he
    · left
      exact ⟨e', he, rfl, rfl⟩
    · right
      rw [List.mem_singleton] at he
      subst he
      exact ⟨rfl, rfl⟩

/-- `addEdge` joins the requested pair. -/
theorem pairMem_addEdge_self (es : List (String × String × String)) (u v l : String) :
    pairMem (addEdge es u v l) u v := by
  unfold addEdge
  split
  · rename_i hany
    rcases List.any_eq_true.mp hany with ⟨e, he, hse⟩
    refine ⟨(e.1, e.2.1, l), List.mem_map.mpr ⟨e, he, by rw [if_pos hse]⟩, hse⟩
  · exact ⟨(u, v, l), List.mem_append_right _ (List.mem_singleton_self _), sameEdge_self u v⟩

theorem pairMem_addEdge_mono {es : List (String × String × String)} {a b : String}
    (u v l : String) (h : pairMem es a b) : pairMem (addEdge es u v l) a b := by
  obtain ⟨e, he, hse⟩ := h
  unfold addEdge
  split
  · refine ⟨if sameEdge e.1 e.2.1 u v then (e.1, e.2.1, l) else e,
      List.mem_map.mpr ⟨e, he, rfl⟩, ?_⟩
    split
    · exact hse
    · exact hse
  · exact ⟨e, List.mem_append_left _ he, hse⟩

theorem pairMem_edge_step_mono {ns : List (String × String)}
    {es : List (String × String × String)} {lp a b : String}
    (h : pairMem es a b) : pairMem (edge_step ns es lp) a b := by
  unfold edge_step
  dsimp only
  split
  · exact h
  · split
    · split
      · exact pairMem_addEdge_mono _ _ _ h
      · exact h
    · exact h

/-- `edge_step` only adds records whose two endpoints are existing nodes. -/
theorem edge_step_ok {ns : List (String × String)} {es : List (String × String × String)}
    (lp : String) (h : ∀ e ∈ es, hasNode ns e.1 = true ∧ hasNode ns e.2.1 = true) :
    ∀ e ∈ edge_step ns es lp, hasNode ns e.1 = true ∧ hasNode ns e.2.1 = true := by
  unfold edge_step
  dsimp only
  split
  · exact h
  · split
    · split
      · rename_i hcond
        rw [Bool.and_eq_true] at hcond
        intro e' he'
        rcases addEdge_endpoints he' with ⟨e, he, h1, h2⟩ | ⟨h1, h2⟩
        · rw [h1, h2]; exact h e he
        · rw [h1, h2]; exact hcond
      · exact h
    · exact h

/-- `addEdge` keeps the endpoint pairs of distinct records distinct. -/
theorem pairwiseDistinct_addEdge {es : List (String × String × String)}
    (u v l : String) (h : pairwiseDistinct es) : pairwiseDistinct (addEdge es u v l) := by
  unfold pairwiseDistinct addEdge
  split
  · refine List.Pairwise.map _ ?_ h
    intro a b hab
    have ha1 : ((if sameEdge a.1 a.2.1 u v then (a.1, a.2.1, l) else a)).1 = a.1 := by
      split <;> rfl
    have ha2 : ((if sameEdge a.1 a.2.1 u v then (a.1, a.2.1, l) else a)).2.1 = a.2.1 := by
      split <;> rfl
    have hb1 : ((if sameEdge b.1 b.2.1 u v then (b.1, b.2.1, l) else b)).1 = b.1 := by
      split <;> rfl
    have hb2 : ((if sameEdge b.1 b.2.1 u v then (b.1, b.2.1, l) else b)).2.1 = b.2.1 := by
      split <;> rfl
    rw [ha1, ha2, hb1, hb2]
    exact hab
  · rename_i hany
    rw [List.pairwise_append]
    refine ⟨h, by simp, ?_⟩
    intro a ha b hb
    rw [List.mem_singleton] at hb
    subst hb
    cases hc : sameEdge a.1 a.2.1 u v with
    | false => rfl
    | true => exact absurd (List.any_eq_true.mpr ⟨a, ha, hc⟩) hany

theorem pairwiseDistinct_edge_step {ns : List (String × String)}
    {es : List (String × String × String)} (lp : String)
    (h : pairwiseDistinct es) : pairwiseDistinct (edge_step ns es lp) := by
  unfold edge_step
  dsimp only
  split
  · exact h
  · split
    · split
      · exact pairwiseDistinct_addEdge _ _ _ h
      · exact h
    · exact h

theorem sameEdge_flip {a b u v : String} (h : sameEdge a b u v = true) :
    sameEdge b a u v = true := by
  rw [sameEdge_iff] at h ⊢
  rcases h with ⟨h1, h2⟩ | ⟨h1, h2⟩
  · exact .inr ⟨h2, h1⟩
  · exact .inl ⟨h2, h1⟩

/-- Every reported edge comes from a record of `es`, emitted at a node of
`ids`. -/
theorem mem_edges_out {ids : List String} {es : List (String × String × String)}
    {e' : Edge} (h : e' ∈ edges_out ids es) :
    ∃ n ∈ ids, ∃ e ∈ es, emits ids n e = true ∧ e' = ⟨n, otherEnd n e, e.2.2⟩ := by
  unfold edges_out at h
  rcases List.mem_flatten.mp h with ⟨l, hl, hel⟩
  rcases List.mem_map.mp hl with ⟨n, hn, rfl⟩
  rcases List.mem_map.mp hel with ⟨e, hef, rfl⟩
  rcases List.mem_filter.mp hef with ⟨he, hem⟩
  exact ⟨n, hn, e, he, hem, rfl⟩

/-- A record joining `{a, b}` with both `a` and `b` listed in `ids` is
reported by `edges_out` as an edge on that unordered pair. -/
theorem edges_out_exists {ids : List String} {es : List (String × String × String)}
    {a b : String} (ha : a ∈ ids) (hb : b ∈ ids) (h : pairMem es a b) :
    ∃ e' ∈ edges_out ids es, sameEdge e'.efrom e'.eto a b = true := by
  obtain ⟨e, he, hse⟩ := h
  have hends := sameEdge_iff.mp hse
  have hu : e.1 ∈ ids := by
    rcases hends with ⟨h1, _⟩ | ⟨h1, _⟩
    · exact h1 ▸ ha
    · exact h1 ▸ hb
  have hv : e.2.1 ∈ ids := by
    rcases hends with ⟨_, h2⟩ | ⟨_, h2⟩
    · exact h2 ▸ hb
    · exact h2 ▸ ha
  by_cases hle : idxOf ids e.1 ≤ idxOf ids e.2.1
  · have hother : otherEnd e.1 e = e.2.1 := by unfold otherEnd; rw [if_pos rfl]
    have hemit : emits ids e.1 e = true := emits_intro (.inl rfl) (by rw [hother]; exact hle)
    refine ⟨⟨e.1, otherEnd e.1 e, e.2.2⟩, ?_, ?_⟩
    · unfold edges_out
      exact List.mem_flatten.mpr ⟨_, List.mem_map.mpr ⟨e.1, hu, rfl⟩,
        List.mem_map.mpr ⟨e, List.mem_filter.mpr ⟨he, hemit⟩, rfl⟩⟩
    · rw [hother]
      exact hse
  · have hle2 : idxOf ids e.2.1 ≤ idxOf ids e.1 := Nat.le_of_not_le hle
    have hne : e.1 ≠ e.2.1 := by
      intro hh
      exact hle (hh ▸ Nat.le_refl _)
    have hother : otherEnd e.2.1 e = e.1 := by
      unfold otherEnd
      rw [if_neg hne]
    have hemit : emits ids e.2.1 e = true := emits_intro (.inr rfl) (by rw [hother]; exact hle2)
    refine ⟨⟨e.2.1, otherEnd e.2.1 e, e.2.2⟩, ?_, ?_⟩
    · unfold edges_out
      exact List.mem_flatten.mpr ⟨_, List.mem_map.mpr ⟨e.2.1, hv, rfl⟩,
        List.mem_map.mpr ⟨e, List.mem_filter.mpr ⟨he, hemit⟩, rfl⟩⟩
    · rw [hother]
      exact sameEdge_flip hse

/-- With distinct node ids, records joining only existing nodes, and distinct
endpoint pairs, `edges_out` reports each unordered endpoint pair at most
once. -/
theorem edges_out_pairwise {ids : List String} {es : List (String × String × String)}
    (hnd : ids.Nodup)
    (hdist : pairwiseDistinct es) :
    (edges_out ids es).Pairwise
      (fun a b => sameEdge a.efrom a.eto b.efrom b.eto = false) := by
  have hsymm : Symmetric
      (fun e1 e2 : String × String × String => sameEdge e1.1 e1.2.1 e2.1 e2.2.1 = false) := by
    intro p q h
    cases hc : sameEdge q.1 q.2.1 p.1 p.2.1 with
    | false => rfl
    | true => rw [sameEdge_symm hc] at h; cases h
  unfold edges_out
  rw [List.pairwise_flatten]
  constructor
  · intro l hl
    rcases List.mem_map.mp hl with ⟨n, _, rfl⟩
    rw [List.pairwise_map]
    refine List.Pairwise.imp_of_mem ?_ (List.Pairwise.filter _ hdist)
    intro e1 e2 he1 he2 hR
    rcases List.mem_filter.mp he1 with ⟨_, hm1⟩
    rcases List.mem_filter.mp he2 with ⟨_, hm2⟩
    cases hsb : sameEdge n (otherEnd n e1) n (otherEnd n e2) with
    | false => rfl
    | true =>
      exfalso
      have hp1 := endpoint_pair (emits_elim hm1).1
      have hp2 := endpoint_pair (emits_elim hm2).1
      have h12 : sameEdge e1.1 e1.2.1 e2.1 e2.2.1 = true :=
        sameEdge_trans (sameEdge_trans hp1 hsb) (sameEdge_symm hp2)
      rw [h12] at hR
      cases hR
  · rw [List.pairwise_map]
    refine List.Pairwise.imp_of_mem ?_ hnd
    intro n1 n2 hn1 hn2 hne x hx y hy
    rcases List.mem_map.mp hx with ⟨e1, he1f, rfl⟩
    rcases List.mem_map.mp hy with ⟨e2, he2f, rfl⟩
    rcases List.mem_filter.mp he1f with ⟨he1, hm1⟩
    rcases List.mem_filter.mp he2f with ⟨he2, hm2⟩
    cases hsb : sameEdge n1 (otherEnd n1 e1) n2 (otherEnd n2 e2) with
    | false => rfl
    | true =>
      exfalso
      obtain ⟨hend1, hidx1⟩ := emits_elim hm1
      obtain ⟨hend2, hidx2⟩ := emits_elim hm2
      have hp1 := endpoint_pair hend1
      have hp2 := endpoint_pair hend2
      have h12 : sameEdge e1.1 e1.2.1 e2.1 e2.2.1 = true :=
        sameEdge_trans (sameEdge_trans hp1 hsb) (sameEdge_symm hp2)
      by_cases heq : e1 = e2
      · subst heq
        have ho1 : otherEnd n1 e1 = n2 := otherEnd_of_ne hend1 hend2 hne
        have ho2 : otherEnd n2 e1 = n1 := otherEnd_of_ne hend2 hend1 (Ne.symm hne)
        rw [ho1] at hidx1
        rw [ho2] at hidx2
        exact hne (idxOf_inj ids hnd hn1 hn2 (Nat.le_antisymm hidx1 hidx2))
      · have := (List.Pairwise.forall hsymm hdist) he1 he2 heq
        rw [h12] at this
        cases this

/-! ## Build-level lemmas -/

theorem buildFrom_nodes (lip : Option String) (nps : List String) (doc : PyVal) :
    (buildFrom lip nps doc).nodes =
      (build_nodes (node_pfx_set lip nps)).map (fun q => ⟨q.1, q.2⟩) := rfl

theorem buildFrom_edges (lip : Option String) (nps : List String) (doc : PyVal) :
    (buildFrom lip nps doc).edges =
      edges_out ((build_nodes (node_pfx_set lip nps)).map Prod.fst)
        ((find_prefixes_recursively "10.85." doc []).foldl
          (edge_step (build_nodes (node_pfx_set lip nps))) []) := rfl

theorem buildFrom_ids (lip : Option String) (nps : List String) (doc : PyVal) :
    (buildFrom lip nps doc).nodes.map Node.id =
      (build_nodes (node_pfx_set lip nps)).map Prod.fst := by
  rw [buildFrom_nodes, List.map_map]
  rfl

/-- Destructuring a successful build: Part 1a and Part 1b succeeded and the
snapshot is the pure tail applied to their results. -/
theorem build_ok_elim {routes : List Route} {doc : PyVal} {s : Snapshot}
    (h : build_dynamic_topology routes doc = .ok s) :
    ∃ lip nps, part1a doc = .ok lip ∧ part1b routes = .ok nps ∧
      s = buildFrom lip nps doc := by
  unfold build_dynamic_topology at h
  cases h1 : part1a doc with
  | error e =>
    rw [h1] at h
    simp [Bind.bind, Except.bind] at h
  | ok lip =>
    rw [h1] at h
    cases h2 : part1b routes with
    | error e =>
      rw [h2] at h
      simp [Bind.bind, Except.bind] at h
    | ok nps =>
      rw [h2] at h
      exact ⟨lip, nps, rfl, rfl, (Except.ok.inj h).symm⟩

/-- All edge records accumulated by the Part 2b loop join existing nodes. -/
theorem build_es_ok (ns : List (String × String)) (links : List String) :
    ∀ e ∈ links.foldl (edge_step ns) [],
      hasNode ns e.1 = true ∧ hasNode ns e.2.1 = true := by
  exact foldl_preserve
    (fun es => ∀ e ∈ es, hasNode ns e.1 = true ∧ hasNode ns e.2.1 = true)
    (edge_step ns) (fun a b h => edge_step_ok b h) links []
    (by intro e he; cases he)

/-- The endpoint pairs of the records accumulated by the Part 2b loop are
pairwise distinct. -/
theorem build_es_distinct (ns : List (String × String)) (links : List String) :
    pairwiseDistinct (links.foldl (edge_step ns) []) := by
  exact foldl_preserve pairwiseDistinct (edge_step ns)
    (fun a b h => pairwiseDistinct_edge_step b h) links [] List.Pairwise.nil

/-- Both endpoints of every edge of a built snapshot are node ids of the same
snapshot. -/
theorem buildFrom_edge_endpoints {lip : Option String} {nps : List String} {doc : PyVal}
    {e' : Edge} (h : e' ∈ (buildFrom lip nps doc).edges) :
    e'.efrom ∈ (buildFrom lip nps doc).nodes.map Node.id ∧
    e'.eto ∈ (buildFrom lip nps doc).nodes.map Node.id := by
  rw [buildFrom_edges] at h
  rw [buildFrom_ids]
  rcases mem_edges_out h with ⟨n, hn, e, he, _, rfl⟩
  have hok := build_es_ok (build_nodes (node_pfx_set lip nps))
    (find_prefixes_recursively "10.85." doc []) e he
  constructor
  · exact hn
  · rcases otherEnd_mem n e with ho | ho
    · rw [ho]
      exact hasNode_iff.mp hok.1
    · rw [ho]
      exact hasNode_iff.mp hok.2

/-- A discovered link string with a two-character third octet whose two
derived node ids both exist yields an edge on that unordered pair. -/
theorem buildFrom_link_edge {lip : Option String} {nps : List String} {doc : PyVal}
    {lp third : String}
    (hlp : lp ∈ find_prefixes_recursively "10.85." doc [])
    (hthird : (strSplit ((strSplit lp "/").headD "") ".")[2]? = some third)
    (hlen : third.data.length = 2)
    (h1 : ("R" ++ String.mk (third.data.take 1)) ∈ (buildFrom lip nps doc).nodes.map Node.id)
    (h2 : ("R" ++ String.mk (third.data.drop 1)) ∈ (buildFrom lip nps doc).nodes.map Node.id) :
    ∃ e' ∈ (buildFrom lip nps doc).edges,
      sameEdge e'.efrom e'.eto ("R" ++ String.mk (third.data.take 1))
        ("R" ++ String.mk (third.data.drop 1)) = true := by
  rw [buildFrom_ids] at h1 h2
  have hn1 : hasNode (build_nodes (node_pfx_set lip nps)) ("R" ++ String.mk (third.data.take 1)) = true :=
    hasNode_iff.mpr h1
  have hn2 : hasNode (build_nodes (node_pfx_set lip nps)) ("R" ++ String.mk (third.data.drop 1)) = true :=
    hasNode_iff.mpr h2
  have hstep : ∀ es', pairMem
      (edge_step (build_nodes (node_pfx_set lip nps)) es' lp)
      ("R" ++ String.mk (third.data.take 1)) ("R" ++ String.mk (third.data.drop 1)) := by
    intro es'
    unfold edge_step
    dsimp only
    rw [hthird]
    dsimp only
    rw [if_pos hlen, hn1, hn2]
    exact pairMem_addEdge_self _ _ _ _
  have hpm : pairMem
      ((find_prefixes_recursively "10.85." doc []).foldl
        (edge_step (build_nodes (node_pfx_set lip nps))) [])
      ("R" ++ String.mk (third.data.take 1)) ("R" ++ String.mk (third.data.drop 1)) :=
    foldl_attains
      (fun es => pairMem es ("R" ++ String.mk (third.data.take 1))
        ("R" ++ String.mk (third.data.drop 1)))
      (edge_step (build_nodes (node_pfx_set lip nps)))
      (fun _ _ h => pairMem_edge_step_mono h)
      (find_prefixes_recursively "10.85." doc []) [] lp hlp hstep
  rw [buildFrom_edges]
  exact edges_out_exists h1 h2 hpm

/-- No two edges of a built snapshot join the same unordered pair of node
ids. -/
theorem buildFrom_edges_pairwise (lip : Option String) (nps : List String) (doc : PyVal) :
    (buildFrom lip nps doc).edges.Pairwise
      (fun a b => sameEdge a.efrom a.eto b.efrom b.eto = false) := by
  rw [buildFrom_edges]
  exact edges_out_pairwise (build_nodes_nodup _) (build_es_distinct _ _)

/-! ## Claim theorems -/

/-- C1, counterexample: on the end-to-end document the program does not
produce the claimed snapshot — the produced edge label is `10.85.12.5/30`
(the advertised host address with the mask rewritten), not the network
address `10.85.12.0/30` the claim requires. -/
theorem c1_counterexample :
    fetch_topology c1Doc = .ok c1Actual ∧ c1Actual ≠ c1Claimed :=
  ⟨rfl, by decide⟩

/-- C1, amended: the end-to-end document with first peer-id
`bgp://192.168.7.1`, extracted routes `192.168.7.1/32`, `192.168.7.2/32` and
nested string `10.85.12.5/32` produces exactly nodes R1, R2 and one edge
R1–R2, whose label is the advertised address with its mask replaced by `/30`
(`10.85.12.5/30`), not the `/30` network address. -/
theorem c1_edge_label :
    extract_routes c1Doc = c1Routes ∧
    build_dynamic_topology c1Routes c1Doc = .ok c1Actual ∧
    fetch_topology c1Doc = .ok c1Actual :=
  ⟨rfl, rfl, rfl⟩

/-- C2, counterexample: a newly built snapshot with the same node set and
edge set as the stored one, listed in a different order, is treated as a
change — the store is updated and a broadcast occurs. -/
theorem c2_counterexample :
    c2Snd.nodes.Perm c2Fst.nodes ∧ c2Snd.edges = c2Fst.edges ∧
    considerSnapshot (some c2Fst) c2Snd = (some c2Snd, true) :=
  ⟨by decide, rfl, rfl⟩

/-- C2, amended: change detection compares snapshots by structural equality
of their node and edge lists (Python `!=` on the dictionaries), not by
order-independent set equality.  A snapshot differing from the store (also
merely by order, witnessed by the concrete reordered pair) is adopted and
broadcast; feeding the very same snapshot again never broadcasts a second
time. -/
theorem c2_structural_change_detection :
    (∀ stored g, stored ≠ some g → considerSnapshot stored g = (some g, true)) ∧
    (∀ stored g, considerSnapshot (considerSnapshot stored g).1 g
        = ((considerSnapshot stored g).1, false)) ∧
    considerSnapshot (some c2Fst) c2Snd = (some c2Snd, true) := by
  refine ⟨?_, ?_, rfl⟩
  · intro stored g h
    unfold considerSnapshot
    rw [if_pos ⟨rfl, h⟩]
  · intro stored g
    by_cases h : stored ≠ some g
    · have h1 : considerSnapshot stored g = (some g, true) := by
        unfold considerSnapshot
        rw [if_pos ⟨rfl, h⟩]
      rw [h1]
      unfold considerSnapshot
      rw [if_neg (fun hc => hc.2 rfl)]
    · have h1 : considerSnapshot stored g = (stored, false) := by
        unfold considerSnapshot
        rw [if_neg (fun hc => h hc.2)]
      rw [h1]
      have h2 : stored = some g := not_not.mp h
      subst h2
      unfold considerSnapshot
      rw [if_neg (fun hc => hc.2 rfl)]

/-- C2, witness: a fresh snapshot differing from the (empty) store is adopted
and broadcast. -/
theorem c2_structural_change_detection_witness :
    considerSnapshot none c2Fst = (some c2Fst, true) :=
  c2_structural_change_detection.1 none c2Fst (by decide)

/-- C3, counterexample: a wrong-shape table aborts the whole extraction — the
document `c3BadDoc` whose good branch alone yields `192.168.7.1/32` (shown by
`c3GoodDoc`) extracts to the empty list, discarding that prefix. -/
theorem c3_counterexample :
    extract_routes c3BadDoc = [] ∧
    extract_routes c3GoodDoc = [⟨.pstr "192.168.7.1/32"⟩] :=
  ⟨rfl, rfl⟩

/-- C3, amended: an absent field is treated as empty and skips only that
branch (`c3AbsentDoc` still yields the loc-rib prefix), but a wrong-shape
field raises an internal error that the extractor's single `except` converts
into an empty result, discarding the prefixes collected from every other
branch. -/
theorem c3_anomaly_aborts_extraction :
    extract_routes_core c3BadDoc = .error .attributeError ∧
    extract_routes c3BadDoc = [] ∧
    extract_routes c3GoodDoc = [⟨.pstr "192.168.7.1/32"⟩] ∧
    extract_routes c3AbsentDoc = [⟨.pstr "192.168.7.1/32"⟩] :=
  ⟨rfl, rfl, rfl, rfl⟩

/-- C4, counterexample: a structural anomaly of the wrong-type kind (a
non-string peer-id) raises an uncaught `AttributeError` inside the cycle, so
the poll task terminates instead of proceeding to sleep. -/
theorem c4_counterexample :
    poll_cycle none [] peerIdNonStrDoc = .error .attributeError := rfl

/-- C4, amended: a transport failure (empty document) always completes the
cycle, and subscriber delivery failures never affect whether a cycle
completes; but a wrong-type structural anomaly in the document (e.g. a
non-string peer-id) raises an uncaught error that terminates the poll
loop. -/
theorem c4_cycle_termination :
    (∀ (stored : Option Snapshot) (subs : List Subscriber),
      ∃ r, poll_cycle stored subs emptyDoc = .ok r) ∧
    (∀ (stored : Option Snapshot) (subs1 subs2 : List Subscriber) (doc : PyVal),
      (poll_cycle stored subs1 doc).isOk = (poll_cycle stored subs2 doc).isOk) ∧
    poll_cycle none [] peerIdNonStrDoc = .error .attributeError := by
  refine ⟨?_, ?_, rfl⟩
  · intro stored subs
    exact ⟨_, rfl⟩
  · intro stored subs1 subs2 doc
    unfold poll_cycle
    cases fetch_topology doc with
    | error e => rfl
    | ok g => rfl

/-- C5, counterexample: the candidate prefix `192.168.7.x/32`, whose IP part
is not four dot-separated numeric octets, is not skipped — it produces the
node `Rx`. -/
theorem c5_counterexample :
    build_dynamic_topology [c5Route] emptyDoc = .ok ⟨[⟨"Rx", "192.168.7.x"⟩], []⟩ :=
  rfl

/-- C5, amended: node construction performs no octet validation at all — its
`except (ValueError, IndexError)` guard protects operations that cannot
raise, so every candidate prefix contributes a node whose id is `R` followed
by the text after the prefix's last dot, and the build never aborts in this
step. -/
theorem c5_no_octet_validation :
    (∀ (ps : List String) (p : String), p ∈ ps →
      ("R" ++ last_octet (ip_of p)) ∈ (build_nodes ps).map Prod.fst) ∧
    build_dynamic_topology [c5Route] emptyDoc = .ok ⟨[⟨"Rx", "192.168.7.x"⟩], []⟩ :=
  ⟨fun _ _ hp => mem_build_nodes hp, rfl⟩

/-- C5, witness: the non-numeric candidate is itself a member of the node
list built from it. -/
theorem c5_no_octet_validation_witness :
    ("R" ++ last_octet (ip_of "192.168.7.x/32")) ∈
      (build_nodes ["192.168.7.x/32"]).map Prod.fst :=
  c5_no_octet_validation.1 ["192.168.7.x/32"] "192.168.7.x/32" (by decide)

/-- C6, counterexample: a present but malformed peer-id (`"192.168.7.9"`,
lacking the `<scheme>://` separator) still produces a local node `R9`,
contradicting the claim that no local node is produced. -/
theorem c6_counterexample :
    build_dynamic_topology [] peerIdMalformedDoc = .ok ⟨[⟨"R9", "192.168.7.9"⟩], []⟩ :=
  rfl

/-- C6, amended: only a peer-id lookup failing with `KeyError`/`IndexError`
(absent field) makes the builder proceed without a local node while still
turning every candidate prefix into a node; a malformed peer-id string still
yields a local node derived from the text after the last `//`, and a
non-string peer-id raises an uncaught error that aborts the whole build. -/
theorem c6_peer_id_handling :
    (∀ (routes : List Route) (doc : PyVal) (nps : List String),
      part1a doc = .ok none → part1b routes = .ok nps →
      build_dynamic_topology routes doc = .ok (buildFrom none nps doc) ∧
      ∀ p ∈ nps, ("R" ++ last_octet (ip_of p)) ∈
        (buildFrom none nps doc).nodes.map Node.id) ∧
    build_dynamic_topology [⟨.pstr "192.168.7.3/32"⟩] peerIdAbsentDoc =
      .ok ⟨[⟨"R3", "192.168.7.3"⟩], []⟩ ∧
    build_dynamic_topology [] peerIdMalformedDoc = .ok ⟨[⟨"R9", "192.168.7.9"⟩], []⟩ ∧
    build_dynamic_topology [] peerIdNonStrDoc = .error .attributeError := by
  refine ⟨?_, rfl, rfl, rfl⟩
  intro routes doc nps h1 h2
  constructor
  · unfold build_dynamic_topology
    rw [h1, h2]
    rfl
  · intro p hp
    rw [buildFrom_ids]
    exact mem_build_nodes hp

/-- C6, witness: the absent-peer-id document builds without failing and keeps
its candidate node. -/
theorem c6_peer_id_handling_witness :
    build_dynamic_topology [⟨.pstr "192.168.7.3/32"⟩] peerIdAbsentDoc =
      .ok (buildFrom none ["192.168.7.3/32"] peerIdAbsentDoc) ∧
    ∀ p ∈ ["192.168.7.3/32"], ("R" ++ last_octet (ip_of p)) ∈
      (buildFrom none ["192.168.7.3/32"] peerIdAbsentDoc).nodes.map Node.id :=
  c6_peer_id_handling.1 [⟨.pstr "192.168.7.3/32"⟩] peerIdAbsentDoc
    ["192.168.7.3/32"] rfl rfl

/-- C7: in every successful build, both endpoints of every produced edge are
node ids of the same snapshot (an edge never references an unknown node and
never creates one); conversely, every discovered link string with a
two-character third octet whose two derived ids both exist yields an edge on
that unordered pair; and concretely, the link `10.85.12.0/30` with only node
R1 present yields zero edges. -/
theorem c7_edge_endpoint_invariant :
    (∀ (routes : List Route) (doc : PyVal) (s : Snapshot),
      build_dynamic_topology routes doc = .ok s →
      ∀ e ∈ s.edges, e.efrom ∈ s.nodes.map Node.id ∧ e.eto ∈ s.nodes.map Node.id) ∧
    (∀ (routes : List Route) (doc : PyVal) (s : Snapshot),
      build_dynamic_topology routes doc = .ok s →
      ∀ lp ∈ find_prefixes_recursively "10.85." doc [], ∀ third : String,
        (strSplit ((strSplit lp "/").headD "") ".")[2]? = some third →
        third.data.length = 2 →
        ("R" ++ String.mk (third.data.take 1)) ∈ s.nodes.map Node.id →
        ("R" ++ String.mk (third.data.drop 1)) ∈ s.nodes.map Node.id →
        ∃ e ∈ s.edges, sameEdge e.efrom e.eto ("R" ++ String.mk (third.data.take 1))
          ("R" ++ String.mk (third.data.drop 1)) = true) ∧
    build_dynamic_topology [⟨.pstr "192.168.7.1/32"⟩] c7LinkDoc =
      .ok ⟨[⟨"R1", "192.168.7.1"⟩], []⟩ := by
  refine ⟨?_, ?_, rfl⟩
  · intro routes doc s h e he
    obtain ⟨lip, nps, _, _, rfl⟩ := build_ok_elim h
    exact buildFrom_edge_endpoints he
  · intro routes doc s h lp hlp third hthird hlen hm1 hm2
    obtain ⟨lip, nps, _, _, rfl⟩ := build_ok_elim h
    exact buildFrom_link_edge hlp hthird hlen hm1 hm2

/-- C7, witness: on the end-to-end document the produced edge's endpoints R1
and R2 are both node ids of the produced snapshot. -/
theorem c7_edge_endpoint_invariant_witness :
    (⟨"R1", "R2", "10.85.12.5/30"⟩ : Edge).efrom ∈ c1Actual.nodes.map Node.id ∧
    (⟨"R1", "R2", "10.85.12.5/30"⟩ : Edge).eto ∈ c1Actual.nodes.map Node.id :=
  c7_edge_endpoint_invariant.1 c1Routes c1Doc c1Actual rfl _ (by decide)

/-- C8: node ids are unique in every successful build, and a routes list with
the prefix `192.168.7.3/32` twice yields exactly one node R3. -/
theorem c8_node_ids_unique :
    (∀ (routes : List Route) (doc : PyVal) (s : Snapshot),
      build_dynamic_topology routes doc = .ok s → (s.nodes.map Node.id).Nodup) ∧
    build_dynamic_topology c8Routes emptyDoc = .ok ⟨[⟨"R3", "192.168.7.3"⟩], []⟩ := by
  refine ⟨?_, rfl⟩
  intro routes doc s h
  obtain ⟨lip, nps, _, _, rfl⟩ := build_ok_elim h
  rw [buildFrom_ids]
  exact build_nodes_nodup _

/-- C8, witness: the duplicate-routes build has distinct node ids. -/
theorem c8_node_ids_unique_witness :
    ((⟨[⟨"R3", "192.168.7.3"⟩], []⟩ : Snapshot).nodes.map Node.id).Nodup :=
  c8_node_ids_unique.1 c8Routes emptyDoc _ rfl

/-- C9: a failed fetch substitutes the empty document, whose cycle snapshot
equals the one obtained by running Extract and Build on that document (both
empty), and this snapshot goes through the change detector exactly like any
other: whenever the store differs — in particular when it holds a rich
topology — the empty snapshot is adopted and broadcast. -/
theorem c9_fetch_failure_refinement :
    fetch_topology emptyDoc = .ok ⟨[], []⟩ ∧
    build_dynamic_topology (extract_routes emptyDoc) emptyDoc = .ok ⟨[], []⟩ ∧
    (∀ stored : Option Snapshot, stored ≠ some (⟨[], []⟩ : Snapshot) →
      considerSnapshot stored ⟨[], []⟩ = (some ⟨[], []⟩, true)) := by
  refine ⟨rfl, rfl, ?_⟩
  intro stored h
  unfold considerSnapshot
  rw [if_pos ⟨rfl, h⟩]

/-- C9, witness: a previously rich stored topology is overwritten by the
empty snapshot and the emptiness is broadcast. -/
theorem c9_fetch_failure_refinement_witness :
    considerSnapshot (some richSnapshot) ⟨[], []⟩ = (some ⟨[], []⟩, true) :=
  c9_fetch_failure_refinement.2.2 (some richSnapshot) (by decide)

/-- C10: every successful build contains at most one edge per unordered pair
of endpoint ids, and the two link strings `10.85.12.0/30` and `10.85.21.0/30`
(naming the same router pair in opposite orders) collapse to the single edge
R1–R2 labelled with the last-processed string, `10.85.21.0/30`. -/
theorem c10_edge_pair_unique :
    (∀ (routes : List Route) (doc : PyVal) (s : Snapshot),
      build_dynamic_topology routes doc = .ok s →
      s.edges.Pairwise (fun a b => sameEdge a.efrom a.eto b.efrom b.eto = false)) ∧
    build_dynamic_topology r12Routes c10Doc =
      .ok ⟨[⟨"R1", "192.168.7.1"⟩, ⟨"R2", "192.168.7.2"⟩],
           [⟨"R1", "R2", "10.85.21.0/30"⟩]⟩ := by
  refine ⟨?_, rfl⟩
  intro routes doc s h
  obtain ⟨lip, nps, _, _, rfl⟩ := build_ok_elim h
  exact buildFrom_edges_pairwise _ _ _

/-- C10, witness: the pairwise property instantiated at the concrete
double-link build. -/
theorem c10_edge_pair_unique_witness :
    ((⟨[⟨"R1", "192.168.7.1"⟩, ⟨"R2", "192.168.7.2"⟩],
       [⟨"R1", "R2", "10.85.21.0/30"⟩]⟩ : Snapshot).edges).Pairwise
      (fun a b => sameEdge a.efrom a.eto b.efrom b.eto = false) :=
  c10_edge_pair_unique.1 r12Routes c10Doc _ rfl
